import Mathlib

/-!
Shallow embedding of the coin-day reward accrual engine of the
store-contracts repository (the `Reward` ledger contract in
`src/contracts/tmp/reward/lib.rs` and the accrual/emission code of the
`RELP` token contract in `src/contracts/tmp/relp/lib.rs`).

Modelling conventions:
* `u128`/`u32` values are `Nat`; unsigned subtraction is written `a - b`
  (truncated `Nat` subtraction) and theorems carry the ordering
  hypotheses under which it agrees with the source's unsigned
  subtraction.  The one place where two's-complement wrap-around is the
  point of a claim (the free-balance guard) uses an explicit
  `% 2 ^ 128` wrapping subtraction.
* `AccountId` is `Nat`; storage hash maps are functions with an explicit
  default, exactly mirroring `unwrap_or` in the source.
* A Rust panic (a failed `assert!` or an out-of-range `Vec` index) is
  modelled as `Option.none`: the call traps and produces no result.
* Cross-contract setter calls (`update_rewards`, `update_coindays`, ...)
  are owner-gated in the source and wrapped in
  `assert!(...is_ok())` at every RELP call site; the RELP contract is
  the owner of its collaborator contracts by deployment, so those calls
  are modelled as the plain state update they perform on success.
-/

namespace StoreContracts

/-- `Coinday` record from `src/contracts/tmp/reward/lib.rs`:
per-account accumulated coin-days, last update time, and the index of
the next award not yet folded into the account's claimed reward. -/
structure Coinday where
  amount : Nat
  timestamp : Nat
  last_index : Nat
  deriving DecidableEq

/-- `Award` record from `src/contracts/tmp/reward/lib.rs`: one sealed
emission epoch (amount emitted, aggregate coin-days at sealing time,
sealing timestamp). -/
structure Award where
  amount : Nat
  total_coinday : Nat
  timestamp : Nat
  deriving DecidableEq

/-- The `Error` enum of the Reward contract
(`src/contracts/tmp/reward/lib.rs`).  Its only variant is
`OnlyOwnerAccess`; in particular the contract has no `OutOfRange`
variant. -/
inductive RewardError where
  | OnlyOwnerAccess
  deriving DecidableEq

/-- Storage of the `Reward` contract (`src/contracts/tmp/reward/lib.rs`).
The `additional` collaborator contract referenced by the RELP contract
is not part of the repository's sources; per the specification (§6) it
exposes the identical coinday/award/reward interface, so it is modelled
with this same storage shape. -/
structure RewardState where
  total_reward : Nat
  rewards : Nat → Nat
  total_coinday : Nat × Nat
  coindays : Nat → Option Coinday
  awards : List Award
  daily_award : Nat × Nat
  deploy_time : Nat
  owner : Nat

namespace RewardState

/-- `reward_of`: stored reward of a user, defaulting to 0. -/
def reward_of (st : RewardState) (user : Nat) : Nat :=
  st.rewards user

/-- `get_coinday_info`: stored coinday record of a user, defaulting to
`(amount 0, timestamp now, last_index 0)` where `now` is the block
timestamp of the query. -/
def get_coinday_info (st : RewardState) (now user : Nat) : Coinday :=
  (st.coindays user).getD { amount := 0, timestamp := now, last_index := 0 }

/-- `get_award`: the source evaluates `self.awards[index as usize]`,
which returns the stored award for `index < length` and panics with an
index-out-of-range for `index >= length`; the panic is modelled as
`none`. -/
def get_award (st : RewardState) (index : Nat) : Option Award :=
  st.awards[index]?

/-- `awards_length`: number of sealed awards. -/
def awards_length (st : RewardState) : Nat :=
  st.awards.length

/-- `update_rewards` after its owner check: overwrite a user's stored
reward. -/
def update_rewards (st : RewardState) (user value : Nat) : RewardState :=
  { st with rewards := fun a => if a = user then value else st.rewards a }

/-- `update_coindays` after its owner check: overwrite a user's coinday
record. -/
def update_coindays (st : RewardState) (user coinday timestamp index : Nat) :
    RewardState :=
  { st with coindays := fun a =>
      if a = user then
        some { amount := coinday, timestamp := timestamp, last_index := index }
      else st.coindays a }

/-- `update_total_reward` after its owner check. -/
def update_total_reward (st : RewardState) (new_value : Nat) : RewardState :=
  { st with total_reward := new_value }

/-- `update_total_coinday` after its owner check. -/
def update_total_coinday (st : RewardState) (new_value : Nat × Nat) : RewardState :=
  { st with total_coinday := new_value }

/-- `update_daily_award` after its owner check. -/
def update_daily_award (st : RewardState) (new_amount : Nat × Nat) : RewardState :=
  { st with daily_award := new_amount }

/-- The ledger append performed by `update_awards` once the owner check
has passed: push one new `Award` onto the end of the award vector. -/
def push_award (st : RewardState) (amount total_coinday timestamp : Nat) :
    RewardState :=
  { st with awards := st.awards ++
      [{ amount := amount, total_coinday := total_coinday, timestamp := timestamp }] }

/-- `update_awards` as the message entry point: owner-gated append of
one new `Award`.  The source performs no check on `total_coinday`. -/
def update_awards (st : RewardState) (caller amount total_coinday timestamp : Nat) :
    Except RewardError RewardState :=
  if caller ≠ st.owner then Except.error RewardError.OnlyOwnerAccess
  else Except.ok (push_award st amount total_coinday timestamp)

end RewardState

/-- The `Error` enum of the RELP contract
(`src/contracts/tmp/relp/lib.rs`). -/
inductive Error where
  | InsufficientFreeBalance
  | InsufficientSupply
  | InvalidAmount
  | InsufficientAllowance
  | OnlyOwnerAccess
  | IntervalTooShort
  | NeedLiquidateBlockReward
  | NeedLiquidateIncreaseReward
  deriving DecidableEq

/-- Storage of the RELP contract (`src/contracts/tmp/relp/lib.rs`)
restricted to the fields the accrual engine touches, together with its
two collaborator contracts (`reward_contract` for the ELP stream,
`add_contract` for the ELC stream) and the balances of the external ELC
token minted by `get_elc_reward`.  Lock info is reduced to the fields
read by the engine: `(block_number, lock_balance)`. -/
structure RELPState where
  total_supply : Nat
  balances : Nat → Nat
  lock_infos : Nat → Nat × Nat
  owner : Nat
  reward_contract : RewardState
  add_contract : RewardState
  elc_minted : Nat → Nat

namespace RELPState

/-- `balance_of`: stored balance, defaulting to 0. -/
def balance_of (st : RELPState) (user : Nat) : Nat :=
  st.balances user

/-- `lock_info_of`: stored lock info, defaulting to `(0, 0)`. -/
def lock_info_of (st : RELPState) (user : Nat) : Nat × Nat :=
  st.lock_infos user

end RELPState

/-- The coin-day rollforward shared by every accrual routine in
`relp/lib.rs`:
`coinday_i = coinday_info.amount + balance * (t - coinday_info.timestamp)`. -/
def coinday_at (info : Coinday) (balance t : Nat) : Nat :=
  info.amount + balance * (t - info.timestamp)

/-- The accumulation loop of `get_elc_reward` (relp/lib.rs lines
447-454).  The source iterates `for i in index..length` reading
`get_award(i)` with `length` the full ledger length, i.e. exactly over
the suffix `awards.drop index`; each epoch contributes
`coinday_i * award.amount * 1e8 / award.total_coinday` (the ELC stream
scales by `1e8 as u128 = 100000000`). -/
def settle_elc (info : Coinday) (balance : Nat) (pending : List Award) : Nat :=
  pending.foldl
    (fun elc_amount cur_award =>
      elc_amount +
        coinday_at info balance cur_award.timestamp * cur_award.amount
          * 100000000 / cur_award.total_coinday)
    0

/-- The accumulation loop of `get_elp_reward` (relp/lib.rs lines
602-609); same iteration as `settle_elc` but without the `1e8` factor:
each epoch contributes `coinday_i * award.amount / award.total_coinday`. -/
def settle_elp (info : Coinday) (balance : Nat) (pending : List Award) : Nat :=
  pending.foldl
    (fun elp_amount cur_award =>
      elp_amount +
        coinday_at info balance cur_award.timestamp * cur_award.amount
          / cur_award.total_coinday)
    0

/-- `get_elc_reward` (relp/lib.rs lines 431-463): the inline settle of
the ELC stream.  Returns the updated system state together with the new
checkpoint `(now_time, length)`; fails with
`NeedLiquidateIncreaseReward` when `length - index > 5 && balance != 0`. -/
def get_elc_reward (st : RELPState) (now user : Nat) :
    Except Error (RELPState × Nat × Nat) :=
  let balance := st.balance_of user
  let coinday_info := st.add_contract.get_coinday_info now user
  let length := st.add_contract.awards_length
  let index := coinday_info.last_index
  if length - index > 5 ∧ balance ≠ 0 then
    Except.error Error.NeedLiquidateIncreaseReward
  else
    let elc_amount := settle_elc coinday_info balance (st.add_contract.awards.drop index)
    if elc_amount > 0 then
      let old_reward := st.add_contract.reward_of user
      let st1 := { st with
        add_contract := st.add_contract.update_rewards user (elc_amount + old_reward) }
      let st2 := { st1 with
        elc_minted := fun a =>
          if a = user then st1.elc_minted a + elc_amount else st1.elc_minted a }
      Except.ok (st2, now, length)
    else
      Except.ok (st, now, length)

/-- `get_elp_reward` (relp/lib.rs lines 578-617): the inline settle of
the ELP stream.  First resets the daily-award start time on the very
first mint (`total_supply == 0 && deploy_time == daily_award.1`), then
performs the same bounded settle as the ELC stream, crediting the
reward ledger without scaling. -/
def get_elp_reward (st : RELPState) (now user : Nat) :
    Except Error (RELPState × Nat × Nat) :=
  let total_supply := st.total_supply
  let deploy_time := st.reward_contract.deploy_time
  let daily_award := st.reward_contract.daily_award
  let st0 :=
    if total_supply = 0 ∧ deploy_time = daily_award.2 then
      { st with reward_contract :=
          st.reward_contract.update_daily_award (daily_award.1, now) }
    else st
  let balance := st0.balance_of user
  let coinday_info := st0.reward_contract.get_coinday_info now user
  let length := st0.reward_contract.awards_length
  let index := coinday_info.last_index
  if length - index > 5 ∧ balance ≠ 0 then
    Except.error Error.NeedLiquidateIncreaseReward
  else
    let elp_amount := settle_elp coinday_info balance (st0.reward_contract.awards.drop index)
    if elp_amount > 0 then
      let old_reward := st0.reward_contract.reward_of user
      Except.ok
        ({ st0 with
            reward_contract := st0.reward_contract.update_rewards user (elp_amount + old_reward) },
          now, length)
    else
      Except.ok (st0, now, length)

/-- `increase_coinday_elp` (relp/lib.rs lines 637-647): roll the ELP
coinday record of `user` forward to `now_time` using the current
balance, and set its `last_index` to `index`.  `block_now` is the block
timestamp used by `get_coinday_info`'s absent-record default. -/
def increase_coinday_elp (st : RELPState) (user now_time index block_now : Nat) :
    RELPState :=
  let balance := st.balance_of user
  let coinday_info := st.reward_contract.get_coinday_info block_now user
  let new_coinday := coinday_info.amount + balance * (now_time - coinday_info.timestamp)
  { st with reward_contract :=
      st.reward_contract.update_coindays user new_coinday now_time index }

/-- `increase_coinday_elc` (relp/lib.rs lines 483-493): same as
`increase_coinday_elp` but on the ELC-stream collaborator. -/
def increase_coinday_elc (st : RELPState) (user now_time index block_now : Nat) :
    RELPState :=
  let balance := st.balance_of user
  let coinday_info := st.add_contract.get_coinday_info block_now user
  let new_coinday := coinday_info.amount + balance * (now_time - coinday_info.timestamp)
  { st with add_contract :=
      st.add_contract.update_coindays user new_coinday now_time index }

/-- `decrease_coinday_elp` (relp/lib.rs lines 619-635): roll the ELP
coinday record forward to `now_time`, remove the proportional share
`cur_coinday * (value * 1e8 / balance) / 1e8`, store the remainder with
`last_index = index`, and return the removed amount. -/
def decrease_coinday_elp (st : RELPState) (user value now_time index : Nat) :
    RELPState × Nat :=
  let balance := st.balance_of user
  let coinday_info := st.reward_contract.get_coinday_info now_time user
  let cur_coinday := coinday_info.amount + balance * (now_time - coinday_info.timestamp)
  let decrease_coinday := cur_coinday * (value * 100000000 / balance) / 100000000
  let new_coinday := cur_coinday - decrease_coinday
  ({ st with reward_contract :=
      st.reward_contract.update_coindays user new_coinday now_time index },
    decrease_coinday)

/-- `decrease_coinday_elc` (relp/lib.rs lines 465-481): same as
`decrease_coinday_elp` but on the ELC-stream collaborator. -/
def decrease_coinday_elc (st : RELPState) (user value now_time index : Nat) :
    RELPState × Nat :=
  let balance := st.balance_of user
  let coinday_info := st.add_contract.get_coinday_info now_time user
  let cur_coinday := coinday_info.amount + balance * (now_time - coinday_info.timestamp)
  let decrease_coinday := cur_coinday * (value * 100000000 / balance) / 100000000
  let new_coinday := cur_coinday - decrease_coinday
  ({ st with add_contract :=
      st.add_contract.update_coindays user new_coinday now_time index },
    decrease_coinday)

/-- The bounded catch-up loop of `liquidate_block_reward` (relp/lib.rs
lines 559-568).  The source's `while i < length` loop starts at
`i = index`, breaks once `i - index >= 50`, and reads `get_award(i)`
(always in range inside the loop); it is therefore a structural
recursion over the suffix `awards.drop index` counting the iterations
already done in `steps` (so `i = index + steps`).  Returns the pair
`(elp_amount, steps)`. -/
def liquidate_loop_elp (info : Coinday) (balance : Nat) :
    List Award → Nat → Nat → Nat × Nat
  | [], steps, acc => (acc, steps)
  | cur_award :: rest, steps, acc =>
    if steps ≥ 50 then (acc, steps)
    else
      liquidate_loop_elp info balance rest (steps + 1)
        (acc + coinday_at info balance cur_award.timestamp * cur_award.amount
          / cur_award.total_coinday)

/-- The bounded catch-up loop of `liquidate_increase_reward`
(relp/lib.rs lines 411-420); identical to `liquidate_loop_elp` but each
epoch's contribution is scaled by `1e8 as u128`. -/
def liquidate_loop_elc (info : Coinday) (balance : Nat) :
    List Award → Nat → Nat → Nat × Nat
  | [], steps, acc => (acc, steps)
  | cur_award :: rest, steps, acc =>
    if steps ≥ 50 then (acc, steps)
    else
      liquidate_loop_elc info balance rest (steps + 1)
        (acc + coinday_at info balance cur_award.timestamp * cur_award.amount
          * 100000000 / cur_award.total_coinday)

/-- `liquidate_block_reward` (relp/lib.rs lines 551-576): manual
bounded catch-up of the ELP stream.  `assert!(length > index)` failing
and the final `get_award(i)` being out of range are both modelled as
`none` (the call traps). -/
def liquidate_block_reward (st : RELPState) (now user : Nat) : Option RELPState :=
  let balance := st.balance_of user
  let coinday_info := st.reward_contract.get_coinday_info now user
  let length := st.reward_contract.awards_length
  let index := coinday_info.last_index
  if length > index then
    let r := liquidate_loop_elp coinday_info balance
      (st.reward_contract.awards.drop index) 0 0
    let elp_amount := r.1
    let i := index + r.2
    if elp_amount > 0 then
      let old_reward := st.reward_contract.reward_of user
      let st1 := { st with
        reward_contract := st.reward_contract.update_rewards user (elp_amount + old_reward) }
      match st1.reward_contract.get_award i with
      | some cur_award => some (increase_coinday_elp st1 user cur_award.timestamp i now)
      | none => none
    else some st
  else none

/-- `liquidate_increase_reward` (relp/lib.rs lines 401-429): manual
bounded catch-up of the ELC stream.  Additionally asserts
`balance > 0`; note the source's final record update calls
`increase_coinday_elp` (the ELP-stream record) even though the loop
ran over the ELC-stream ledger. -/
def liquidate_increase_reward (st : RELPState) (now user : Nat) : Option RELPState :=
  let balance := st.balance_of user
  if balance > 0 then
    let coinday_info := st.add_contract.get_coinday_info now user
    let length := st.add_contract.awards_length
    let index := coinday_info.last_index
    if length > index then
      let r := liquidate_loop_elc coinday_info balance
        (st.add_contract.awards.drop index) 0 0
      let elc_amount := r.1
      let i := index + r.2
      if elc_amount > 0 then
        let old_reward := st.add_contract.reward_of user
        let st1 := { st with
          add_contract := st.add_contract.update_rewards user (elc_amount + old_reward) }
        match st1.add_contract.get_award i with
        | some cur_award => some (increase_coinday_elp st1 user cur_award.timestamp i now)
        | none => none
      else some st
    else none
  else none

/-- The geometric-decay loop of `update_block_awards` (relp/lib.rs
lines 523-528): `while epochs > 0 { period_award += new_daily_amount;
new_daily_amount = new_daily_amount * 99 / 100; epochs -= 1 }`.
Returns `(period_award, new_daily_amount)`. -/
def decay_loop : Nat → Nat → Nat × Nat
  | 0, new_daily_amount => (0, new_daily_amount)
  | epochs + 1, new_daily_amount =>
    let r := decay_loop epochs (new_daily_amount * 99 / 100)
    (new_daily_amount + r.1, r.2)

/-- `update_block_awards` (relp/lib.rs lines 502-548): the emission
scheduler.  Result is `none` when `assert!(total_supply > 0)` fails;
otherwise `some (result, post_state)` where a typed error leaves the
state exactly as it was (the early returns precede every mutation). -/
def update_block_awards (st : RELPState) (caller now : Nat) :
    Option (Except Error Unit × RELPState) :=
  if caller ≠ st.owner then some (Except.error Error.OnlyOwnerAccess, st)
  else if st.total_supply = 0 then none
  else
    let daily_award := st.reward_contract.daily_award
    let epochs := (now - daily_award.2) / (1800 * 1000)
    if epochs = 0 then some (Except.error Error.IntervalTooShort, st)
    else
      let new_timestamp := daily_award.2 + epochs * (1800 * 1000)
      let r := decay_loop epochs daily_award.1
      let period_award := r.1
      let new_daily_amount := r.2
      let st1 := { st with
        reward_contract :=
          st.reward_contract.update_daily_award (new_daily_amount, new_timestamp) }
      let elp_amount := period_award
      let cur_total := st1.reward_contract.total_coinday
      let increase_coinday := st1.total_supply * (now - cur_total.2)
      let new_total_coinday := cur_total.1 + increase_coinday
      let old_total_reward := st1.reward_contract.total_reward
      let st2 := { st1 with
        reward_contract := st1.reward_contract.update_total_reward (elp_amount + old_total_reward) }
      let st3 := { st2 with
        reward_contract := st2.reward_contract.update_total_coinday (new_total_coinday, now) }
      let st4 := { st3 with
        reward_contract := st3.reward_contract.push_award elp_amount new_total_coinday now }
      some (Except.ok (), st4)

/-- Wrapping `u128` subtraction: the free-balance guards of `burn` and
`transfer_from_to` compute `user_balance - lock_balance` with the
unchecked release-profile semantics, i.e. modulo `2^128`.  (Under an
overflow-checked build the same subtraction panics instead; either way
the typed error branch is not reached when `lock_balance >
user_balance`.) -/
def u128_sub (a b : Nat) : Nat :=
  (a + 2 ^ 128 - b) % 2 ^ 128

/-- The guard prefix of `burn` (relp/lib.rs lines 277-288): owner
check, supply check, then the free-balance check
`user_balance - lock_balance < amount`.  The settle/decrease body past
the guard is outside the scope of the guard claims. -/
def burn_guard (st : RELPState) (caller user amount : Nat) : Except Error Unit :=
  if caller ≠ st.owner then Except.error Error.OnlyOwnerAccess
  else if st.total_supply < amount then Except.error Error.InsufficientSupply
  else
    let user_balance := st.balance_of user
    let lock_balance := (st.lock_info_of user).2
    if u128_sub user_balance lock_balance < amount then
      Except.error Error.InsufficientFreeBalance
    else Except.ok ()

/-- The guard prefix of `transfer_from_to` (relp/lib.rs lines 314-324):
the free-balance check `from_balance - lock_balance < value` is the
first check performed. -/
def transfer_guard (st : RELPState) (fromAcct value : Nat) : Except Error Unit :=
  let from_balance := st.balance_of fromAcct
  let lock_balance := (st.lock_info_of fromAcct).2
  if u128_sub from_balance lock_balance < value then
    Except.error Error.InsufficientFreeBalance
  else Except.ok ()

/-- Modelled from the spec (§4.3 step 3): for each pending epoch,
`coinday_i = amount + balance * (epoch.timestamp - ts)` and
`reward = Σ coinday_i * epoch.amount / epoch.total_coinday` with
truncating division. -/
def spec_settle (amount ts balance : Nat) (epochs : List Award) : Nat :=
  (epochs.map
    (fun e => (amount + balance * (e.timestamp - ts)) * e.amount / e.total_coinday)).sum

/-- The per-epoch formula of `spec_settle` with every term additionally
scaled by the integer constant `100000000` before the truncating
division (what the ELC pipeline actually accumulates). -/
def spec_settle_scaled (amount ts balance : Nat) (epochs : List Award) : Nat :=
  (epochs.map
    (fun e => (amount + balance * (e.timestamp - ts)) * e.amount * 100000000 / e.total_coinday)).sum

/-- One decay step of the emission schedule: `d * 99 / 100`
(1% decay, truncating division). -/
def decay_step (d : Nat) : Nat :=
  d * 99 / 100

/-- Modelled from the spec (§4.4): the `k` per-epoch amounts of one
emission period, starting at the current daily amount, each subsequent
term being the previous one decayed by `* 99 / 100`. -/
def period_terms : Nat → Nat → List Nat
  | 0, _ => []
  | k + 1, d => d :: period_terms k (decay_step d)

/-! ## Helper lemmas -/

/-- Accumulating fold of a per-element contribution equals the initial
accumulator plus the sum of the contributions. -/
theorem foldl_add_map_sum (f : Award → Nat) (l : List Award) (n : Nat) :
    l.foldl (fun acc a => acc + f a) n = n + (l.map f).sum := by
  induction l generalizing n with
  | nil => simp
  | cons a t ih => simp [ih, Nat.add_assoc]

/-- The decay loop returns the sum of the period's terms together with
the `k`-times decayed daily amount. -/
theorem decay_loop_eq (k d : Nat) :
    decay_loop k d = ((period_terms k d).sum, decay_step^[k] d) := by
  induction k generalizing d with
  | zero => simp [decay_loop, period_terms]
  | succ k ih =>
    simp [decay_loop, period_terms, ih, Function.iterate_succ_apply, decay_step]

/-- Wrapping `u128` subtraction agrees with truncated subtraction when
no underflow occurs and the minuend is in `u128` range. -/
theorem u128_sub_of_le (a b : Nat) (hba : b ≤ a) (ha : a < 2 ^ 128) :
    u128_sub a b = a - b := by
  unfold u128_sub
  have h1 : a + 2 ^ 128 - b = (a - b) + 2 ^ 128 := by omega
  rw [h1, Nat.add_mod_right, Nat.mod_eq_of_lt (by omega)]

/-! ## Concrete states used by scenario theorems and witnesses -/

/-- Reward-ledger state of the spec's settle scenario: the single
epoch `{amount:100, total_coinday:1000, timestamp:100}` and account 7
holding the coin-day record `(amount 0, timestamp 0, last_index 0)`. -/
def scenario_rs : RewardState :=
  { total_reward := 0
    rewards := fun _ => 0
    total_coinday := (0, 0)
    coindays := fun a =>
      if a = 7 then some { amount := 0, timestamp := 0, last_index := 0 } else none
    awards := [{ amount := 100, total_coinday := 1000, timestamp := 100 }]
    daily_award := (100, 0)
    deploy_time := 1
    owner := 0 }

/-- RELP state of the spec's settle scenario: account 7 holds balance
50 and both reward streams carry `scenario_rs`. -/
def scenario_state : RELPState :=
  { total_supply := 50
    balances := fun a => if a = 7 then 50 else 0
    lock_infos := fun _ => (0, 0)
    owner := 0
    reward_contract := scenario_rs
    add_contract := scenario_rs
    elc_minted := fun _ => 0 }

/-- A reward-ledger state with an empty award vector. -/
def empty_rs : RewardState :=
  { total_reward := 0
    rewards := fun _ => 0
    total_coinday := (0, 0)
    coindays := fun _ => none
    awards := []
    daily_award := (0, 0)
    deploy_time := 1
    owner := 0 }

/-- A reward-ledger state with a backlog of 6 sealed epochs for
account 7. -/
def backlog_rs : RewardState :=
  { scenario_rs with awards :=
      [{ amount := 100, total_coinday := 1000, timestamp := 100 },
       { amount := 100, total_coinday := 1000, timestamp := 110 },
       { amount := 100, total_coinday := 1000, timestamp := 120 },
       { amount := 100, total_coinday := 1000, timestamp := 130 },
       { amount := 100, total_coinday := 1000, timestamp := 140 },
       { amount := 100, total_coinday := 1000, timestamp := 150 }] }

/-- RELP state in which account 7 (balance 50) has a backlog of 6
epochs on both streams. -/
def backlog_state : RELPState :=
  { scenario_state with reward_contract := backlog_rs, add_contract := backlog_rs }

/-- RELP state for the emission-scheduler scenarios: daily award
`(100, 0)`, nonzero supply. -/
def emission_state : RELPState :=
  { scenario_state with
    total_supply := 1
    reward_contract := { empty_rs with daily_award := (100, 0) }
    add_contract := empty_rs }

/-- Emission-scheduler state with zero total supply. -/
def zero_supply_state : RELPState :=
  { emission_state with total_supply := 0 }

/-- RELP state for the coin-day decrease scenario: account 7 has
balance 50 and a coin-day record of 5000 current as of time 150 on
both streams. -/
def decrease_state : RELPState :=
  { scenario_state with
    reward_contract :=
      { scenario_rs with coindays := fun a =>
          if a = 7 then some { amount := 5000, timestamp := 150, last_index := 1 } else none }
    add_contract :=
      { scenario_rs with coindays := fun a =>
          if a = 7 then some { amount := 5000, timestamp := 150, last_index := 1 } else none } }

/-- RELP state in which account 7 is fully caught up
(`last_index = awards_length = 1`) with reward 123 already credited. -/
def caught_up_state : RELPState :=
  { scenario_state with reward_contract :=
      { scenario_rs with
        rewards := fun a => if a = 7 then 123 else 0
        coindays := fun a =>
          if a = 7 then some { amount := 5000, timestamp := 150, last_index := 1 } else none } }

/-- RELP state for the free-balance guard: account 7 has balance 10 of
which 3 are locked. -/
def lock_state : RELPState :=
  { scenario_state with
    total_supply := 100
    balances := fun a => if a = 7 then 10 else 0
    lock_infos := fun a => if a = 7 then (0, 3) else (0, 0) }

/-- RELP state whose lock balance exceeds the balance: account 7 has
balance 5 but lock balance 10. -/
def overlock_state : RELPState :=
  { scenario_state with
    total_supply := 100
    balances := fun a => if a = 7 then 5 else 0
    lock_infos := fun a => if a = 7 then (0, 10) else (0, 0) }

/-! ## Claim theorems -/

/-- The ELP-stream inline accumulation equals the specification's
per-epoch formula. -/
theorem settle_elp_eq_spec (info : Coinday) (balance : Nat) (pending : List Award) :
    settle_elp info balance pending
      = spec_settle info.amount info.timestamp balance pending := by
  unfold settle_elp spec_settle coinday_at
  simpa using foldl_add_map_sum
    (fun cur_award =>
      (info.amount + balance * (cur_award.timestamp - info.timestamp)) * cur_award.amount
        / cur_award.total_coinday)
    pending 0

/-- The ELC-stream inline accumulation equals the specification's
per-epoch formula with every term scaled by `100000000`. -/
theorem settle_elc_eq_spec (info : Coinday) (balance : Nat) (pending : List Award) :
    settle_elc info balance pending
      = spec_settle_scaled info.amount info.timestamp balance pending := by
  unfold settle_elc spec_settle_scaled coinday_at
  simpa using foldl_add_map_sum
    (fun cur_award =>
      (info.amount + balance * (cur_award.timestamp - info.timestamp)) * cur_award.amount
        * 100000000 / cur_award.total_coinday)
    pending 0

/-- C1 (amended): for every pending epoch the inline settle computes
`coinday_i = amount + balance * (epoch.timestamp - ts)`; the ELP
stream (`get_elp_reward`) accumulates
`coinday_i * epoch.amount / epoch.total_coinday` with truncating
division, so on the ledger `[{amount:100, total_coinday:1000, ts:100}]`
with balance 50 and record `(0, 0, 0)` the settled ELP reward is 500;
the ELC stream (`get_elc_reward`) accumulates the same term
additionally scaled by `100000000`. -/
theorem inline_settle_accumulation :
    (∀ (info : Coinday) (balance : Nat) (pending : List Award),
        settle_elp info balance pending
          = spec_settle info.amount info.timestamp balance pending)
    ∧ (∀ (info : Coinday) (balance : Nat) (pending : List Award),
        settle_elc info balance pending
          = spec_settle_scaled info.amount info.timestamp balance pending)
    ∧ (match get_elp_reward scenario_state 200 7 with
       | Except.ok r => r.1.reward_contract.reward_of 7
       | Except.error _ => 0) = 500 :=
  ⟨settle_elp_eq_spec, settle_elc_eq_spec, by decide⟩

/-- C1 counterexample: on the claim's own scenario (ledger
`[{amount:100, total_coinday:1000, ts:100}]`, balance 50, record
`(0, 0, 0)`) the ELC-stream inline settle (`get_elc_reward`) credits
`5000 * 100 * 100000000 / 1000 = 50000000000`, not the claimed 500. -/
theorem inline_settle_elc_scale_cex :
    (match get_elc_reward scenario_state 200 7 with
     | Except.ok r => r.1.add_contract.reward_of 7
     | Except.error _ => 0) = 50000000000
    ∧ (50000000000 : Nat) ≠ 500 :=
  ⟨by decide, by decide⟩

/-- C2: on the claim's scenario ledger (backlog 1 ≤ 50, balance 50,
positive accrued reward) the final manual-liquidation call exits its
loop with `i = awards_length` and then reads `get_award(i)` out of
range, so the call traps instead of completing with
`last_index = awards_length`; the same happens for the ELC-stream
manual liquidation. -/
theorem liquidate_final_call_traps :
    liquidate_block_reward scenario_state 200 7 = none
    ∧ liquidate_increase_reward scenario_state 200 7 = none
    ∧ scenario_state.reward_contract.awards_length = 1
    ∧ (scenario_state.reward_contract.get_coinday_info 200 7).last_index = 0
    ∧ scenario_state.balance_of 7 = 50
    ∧ liquidate_loop_elp (scenario_state.reward_contract.get_coinday_info 200 7)
        (scenario_state.balance_of 7) scenario_state.reward_contract.awards 0 0
        = (500, 1) :=
  ⟨rfl, rfl, rfl, rfl, rfl, rfl⟩

/-- C3: the inline settle of either stream returns the
`NeedLiquidateIncreaseReward` error exactly when the backlog
`awards_length - last_index` exceeds 5 and the balance is nonzero (so
a zero-balance account never hits it, whatever the backlog), and no
other error is ever produced.  The hypotheses record the data-model
invariant `last_index ≤ awards_length` under which the source's
`usize` subtraction is the truncated subtraction of the model. -/
theorem needliquidate_exact (st : RELPState) (now user : Nat)
    (h1 : (st.add_contract.get_coinday_info now user).last_index
        ≤ st.add_contract.awards_length)
    (h2 : (st.reward_contract.get_coinday_info now user).last_index
        ≤ st.reward_contract.awards_length) :
    (get_elc_reward st now user = Except.error Error.NeedLiquidateIncreaseReward
      ↔ st.add_contract.awards_length
          - (st.add_contract.get_coinday_info now user).last_index > 5
        ∧ st.balance_of user ≠ 0)
    ∧ (get_elp_reward st now user = Except.error Error.NeedLiquidateIncreaseReward
      ↔ st.reward_contract.awards_length
          - (st.reward_contract.get_coinday_info now user).last_index > 5
        ∧ st.balance_of user ≠ 0)
    ∧ (∀ e : Error,
        get_elc_reward st now user = Except.error e
          ∨ get_elp_reward st now user = Except.error e
          → e = Error.NeedLiquidateIncreaseReward) := by
  refine ⟨?_, ?_, ?_⟩
  · simp only [get_elc_reward]
    split <;> (try split) <;>
      simp_all [RELPState.balance_of, RewardState.get_coinday_info, RewardState.awards_length]
  · simp only [get_elp_reward]
    split <;> split <;> (try split) <;>
      simp_all [RELPState.balance_of, RewardState.get_coinday_info,
        RewardState.awards_length, RewardState.update_daily_award]
  · intro e he
    rcases he with he | he
    · simp only [get_elc_reward] at he
      split at he <;> (try split at he) <;> simp_all
    · simp only [get_elp_reward] at he
      split at he <;> split at he <;> (try split at he) <;> simp_all

/-- C3 witness: on `backlog_state` (backlog 6, balance 50) both
equivalences hold with the invariant hypotheses discharged. -/
theorem needliquidate_exact_witness :
    (get_elc_reward backlog_state 200 7 = Except.error Error.NeedLiquidateIncreaseReward
      ↔ backlog_state.add_contract.awards_length
          - (backlog_state.add_contract.get_coinday_info 200 7).last_index > 5
        ∧ backlog_state.balance_of 7 ≠ 0)
    ∧ (get_elp_reward backlog_state 200 7 = Except.error Error.NeedLiquidateIncreaseReward
      ↔ backlog_state.reward_contract.awards_length
          - (backlog_state.reward_contract.get_coinday_info 200 7).last_index > 5
        ∧ backlog_state.balance_of 7 ≠ 0)
    ∧ (∀ e : Error,
        get_elc_reward backlog_state 200 7 = Except.error e
          ∨ get_elp_reward backlog_state 200 7 = Except.error e
          → e = Error.NeedLiquidateIncreaseReward) :=
  needliquidate_exact backlog_state 200 7 (by decide) (by decide)

/-- C4 (amended): an owner call of `update_awards` appends exactly one
immutable epoch at index `length()` unconditionally — the source
checks nothing about `total_coinday`, so a zero `total_coinday` is
accepted — and a non-owner call fails with `OnlyOwnerAccess`, leaving
the ledger unchanged. -/
theorem update_awards_appends (st : RewardState)
    (caller amount total_coinday timestamp : Nat) (h : caller = st.owner) :
    RewardState.update_awards st caller amount total_coinday timestamp
      = Except.ok { st with awards := st.awards
          ++ [{ amount := amount, total_coinday := total_coinday, timestamp := timestamp }] }
    ∧ (st.awards
        ++ [{ amount := amount, total_coinday := total_coinday, timestamp := timestamp }])[st.awards.length]?
      = some { amount := amount, total_coinday := total_coinday, timestamp := timestamp }
    ∧ (∀ c2, c2 ≠ st.owner →
        RewardState.update_awards st c2 amount total_coinday timestamp
          = Except.error RewardError.OnlyOwnerAccess) := by
  refine ⟨?_, ?_, ?_⟩
  · simp [RewardState.update_awards, RewardState.push_award, h]
  · simp
  · intro c2 hc2
    simp [RewardState.update_awards, hc2]

/-- C4 witness: an owner call on the empty ledger with
`total_coinday = 3` appends the epoch at index 0. -/
theorem update_awards_appends_witness :
    RewardState.update_awards empty_rs 0 7 3 9
      = Except.ok { empty_rs with awards := empty_rs.awards
          ++ [{ amount := 7, total_coinday := 3, timestamp := 9 }] }
    ∧ (empty_rs.awards
        ++ [{ amount := 7, total_coinday := 3, timestamp := 9 }])[empty_rs.awards.length]?
      = some { amount := 7, total_coinday := 3, timestamp := 9 }
    ∧ (∀ c2, c2 ≠ empty_rs.owner →
        RewardState.update_awards empty_rs c2 7 3 9
          = Except.error RewardError.OnlyOwnerAccess) :=
  update_awards_appends empty_rs 0 7 3 9 rfl

/-- C4 counterexample: an owner call of `update_awards` with
`total_coinday = 0` does not fail — it succeeds and appends the
(unusable) epoch. -/
theorem update_awards_zero_total_coinday_ok :
    (match RewardState.update_awards empty_rs 0 10 0 500 with
     | Except.ok s => s.awards
     | Except.error _ => []) = [{ amount := 10, total_coinday := 0, timestamp := 500 }] :=
  rfl

/-- C5 (amended): `get_award` returns the stored epoch when
`index < length()`; when `index ≥ length()` the `Vec` access
`self.awards[index]` panics — an untyped trap, modelled `none` — and
cannot return a typed recoverable error (`RewardError`, the contract's
whole error type, has no OutOfRange variant). -/
theorem get_award_behavior (st : RewardState) (index : Nat) :
    (∀ h : index < st.awards.length,
        RewardState.get_award st index = some (st.awards.get ⟨index, h⟩))
    ∧ (st.awards.length ≤ index → RewardState.get_award st index = none) := by
  constructor
  · intro h
    simp [RewardState.get_award, List.getElem?_eq_getElem h]
  · intro h
    simp [RewardState.get_award, List.getElem?_eq_none h]

/-- C5 witness: on the one-epoch scenario ledger, index 0 returns the
stored epoch and index 5 traps. -/
theorem get_award_behavior_witness :
    RewardState.get_award scenario_rs 0 = some (scenario_rs.awards.get ⟨0, by decide⟩)
    ∧ RewardState.get_award scenario_rs 5 = none :=
  ⟨(get_award_behavior scenario_rs 0).1 (by decide),
   (get_award_behavior scenario_rs 5).2 (by decide)⟩

/-- C5 counterexample: an out-of-range `get_award` call traps (the
model's `none`) rather than failing with any typed error value — the
Reward contract's error type has a single variant, `OnlyOwnerAccess`,
so no `OutOfRange` error can be produced. -/
theorem get_award_out_of_range_traps :
    RewardState.get_award empty_rs 0 = none
    ∧ empty_rs.awards.length = 0
    ∧ (∀ e : RewardError, e = RewardError.OnlyOwnerAccess) :=
  ⟨rfl, rfl, fun e => by cases e; rfl⟩

/-- C6: a successful `update_block_awards` call with
`epochs_elapsed = k > 0` credits a period reward equal to the sum of
`k` geometrically decaying terms starting at the current daily amount,
stores the `k`-times-decayed daily amount, advances
`last_daily_timestamp` to `last + k * interval` (the fixed grid, not
`now`), and seals exactly one epoch carrying the period reward; in
particular `k = 2` with daily amount 100 yields period reward 199 and
new daily amount 98. -/
theorem seal_epochs_decay (st : RELPState) (caller now k : Nat)
    (howner : caller = st.owner) (hsupply : st.total_supply ≠ 0)
    (hk : (now - st.reward_contract.daily_award.2) / (1800 * 1000) = k)
    (hkpos : 0 < k) :
    (match update_block_awards st caller now with
     | some (Except.ok _, st2) =>
         st2.reward_contract.daily_award
           = (decay_step^[k] st.reward_contract.daily_award.1,
              st.reward_contract.daily_award.2 + k * (1800 * 1000))
         ∧ st2.reward_contract.awards
             = st.reward_contract.awards
               ++ [{ amount := (period_terms k st.reward_contract.daily_award.1).sum,
                     total_coinday := st.reward_contract.total_coinday.1
                       + st.total_supply * (now - st.reward_contract.total_coinday.2),
                     timestamp := now }]
         ∧ st2.reward_contract.total_reward
             = (period_terms k st.reward_contract.daily_award.1).sum
               + st.reward_contract.total_reward
     | _ => False)
    ∧ decay_loop 2 100 = (199, 98) := by
  constructor
  · have hkne : k ≠ 0 := Nat.pos_iff_ne_zero.mp hkpos
    simp [update_block_awards, howner, hsupply, hk, hkne, decay_loop_eq,
      RewardState.update_daily_award, RewardState.update_total_reward,
      RewardState.update_total_coinday, RewardState.push_award]
  · decide

/-- C6 witness: on `emission_state` (owner 0, supply 1, daily award
`(100, 0)`) called at `now = 3600000`, two epochs have elapsed. -/
theorem seal_epochs_decay_witness :
    (match update_block_awards emission_state 0 3600000 with
     | some (Except.ok _, st2) =>
         st2.reward_contract.daily_award
           = (decay_step^[2] emission_state.reward_contract.daily_award.1,
              emission_state.reward_contract.daily_award.2 + 2 * (1800 * 1000))
         ∧ st2.reward_contract.awards
             = emission_state.reward_contract.awards
               ++ [{ amount := (period_terms 2 emission_state.reward_contract.daily_award.1).sum,
                     total_coinday := emission_state.reward_contract.total_coinday.1
                       + emission_state.total_supply
                         * (3600000 - emission_state.reward_contract.total_coinday.2),
                     timestamp := 3600000 }]
         ∧ st2.reward_contract.total_reward
             = (period_terms 2 emission_state.reward_contract.daily_award.1).sum
               + emission_state.reward_contract.total_reward
     | _ => False)
    ∧ decay_loop 2 100 = (199, 98) :=
  seal_epochs_decay emission_state 0 3600000 2 rfl (by decide) (by decide) (by decide)

/-- C7 (amended): an owner call of `update_block_awards` with nonzero
total supply and `now - last_daily_timestamp < interval` fails with
`IntervalTooShort` and returns the state unchanged (no epoch appended,
total-coinday tracker, daily-award record and total-reward counter all
keep their prior values); with zero total supply the call instead
traps on `assert!(total_supply > 0)` before reaching the interval
check. -/
theorem seal_epochs_interval_too_short (st : RELPState) (caller now : Nat)
    (howner : caller = st.owner) (hsupply : st.total_supply ≠ 0)
    (hge : st.reward_contract.daily_award.2 ≤ now)
    (hlt : now - st.reward_contract.daily_award.2 < 1800 * 1000) :
    update_block_awards st caller now = some (Except.error Error.IntervalTooShort, st) := by
  simp only [update_block_awards, howner, hsupply]
  simp [Nat.div_eq_of_lt hlt]

/-- C7 witness: on `emission_state` (supply 1, last daily timestamp 0)
called by the owner at `now = 1000`, the interval is too short and the
state is returned unchanged. -/
theorem seal_epochs_interval_too_short_witness :
    update_block_awards emission_state 0 1000
      = some (Except.error Error.IntervalTooShort, emission_state) :=
  seal_epochs_interval_too_short emission_state 0 1000 rfl (by decide) (by decide) (by decide)

/-- C7 counterexample: with zero total supply, a call inside the
claimed domain (`now - last_daily_timestamp = 100 < interval`) traps
on the supply assertion instead of failing with `IntervalTooShort`. -/
theorem seal_epochs_zero_supply_traps :
    update_block_awards zero_supply_state 0 100 = none
    ∧ 100 - zero_supply_state.reward_contract.daily_award.2 < 1800 * 1000
    ∧ update_block_awards zero_supply_state 0 100
        ≠ some (Except.error Error.IntervalTooShort, zero_supply_state) := by
  refine ⟨rfl, by decide, ?_⟩
  intro h
  exact Option.noConfusion (rfl.symm.trans h)

/-- The proportional removal never exceeds the rolled-forward coin-day
balance when the moved value is at most the balance. -/
theorem removed_le_cur (cur value b : Nat) (hb : 0 < b) (hv : value ≤ b) :
    cur * (value * 100000000 / b) / 100000000 ≤ cur := by
  have hq : value * 100000000 / b ≤ 100000000 := by
    calc value * 100000000 / b ≤ b * 100000000 / b := by gcongr
    _ = 100000000 := Nat.mul_div_cancel_left _ hb
  calc cur * (value * 100000000 / b) / 100000000
      ≤ cur * 100000000 / 100000000 := by gcongr
  _ = cur := Nat.mul_div_cancel _ (by norm_num)

/-- C8: on an outbound change of `value` from balance `b > 0`, both
decrease routines roll the record forward to
`cur = amount + b * (t - ts)`, remove exactly
`cur * (value * 100000000 / b) / 100000000` (truncating fixed-point at
scale 1e8), store `cur - removed` with timestamp `t` and the supplied
index, and return `removed`; the removal never exceeds `cur`; on the
scenario `value = 30`, `b = 50`, `cur = 5000` the removal is 3000 and
the stored amount 2000. -/
theorem decrease_coinday_proportional (st : RELPState) (user value now index : Nat)
    (hb : 0 < st.balance_of user) (hv : value ≤ st.balance_of user) :
    ((decrease_coinday_elp st user value now index).2
        = coinday_at (st.reward_contract.get_coinday_info now user) (st.balance_of user) now
            * (value * 100000000 / st.balance_of user) / 100000000
      ∧ (decrease_coinday_elp st user value now index).1.reward_contract.coindays user
          = some { amount :=
                     coinday_at (st.reward_contract.get_coinday_info now user)
                       (st.balance_of user) now
                       - (decrease_coinday_elp st user value now index).2,
                   timestamp := now, last_index := index }
      ∧ (decrease_coinday_elp st user value now index).2
          ≤ coinday_at (st.reward_contract.get_coinday_info now user) (st.balance_of user) now)
    ∧ ((decrease_coinday_elc st user value now index).2
        = coinday_at (st.add_contract.get_coinday_info now user) (st.balance_of user) now
            * (value * 100000000 / st.balance_of user) / 100000000
      ∧ (decrease_coinday_elc st user value now index).1.add_contract.coindays user
          = some { amount :=
                     coinday_at (st.add_contract.get_coinday_info now user)
                       (st.balance_of user) now
                       - (decrease_coinday_elc st user value now index).2,
                   timestamp := now, last_index := index }
      ∧ (decrease_coinday_elc st user value now index).2
          ≤ coinday_at (st.add_contract.get_coinday_info now user) (st.balance_of user) now)
    ∧ (decrease_coinday_elp decrease_state 7 30 150 1).2 = 3000
    ∧ ((decrease_coinday_elp decrease_state 7 30 150 1).1.reward_contract.get_coinday_info
        150 7).amount = 2000 := by
  refine ⟨⟨rfl, ?_, ?_⟩, ⟨rfl, ?_, ?_⟩, by decide, by decide⟩
  · simp [decrease_coinday_elp, RewardState.update_coindays, coinday_at]
  · show coinday_at (st.reward_contract.get_coinday_info now user) (st.balance_of user) now
        * (value * 100000000 / st.balance_of user) / 100000000
      ≤ coinday_at (st.reward_contract.get_coinday_info now user) (st.balance_of user) now
    exact removed_le_cur _ _ _ hb hv
  · simp [decrease_coinday_elc, RewardState.update_coindays, coinday_at]
  · show coinday_at (st.add_contract.get_coinday_info now user) (st.balance_of user) now
        * (value * 100000000 / st.balance_of user) / 100000000
      ≤ coinday_at (st.add_contract.get_coinday_info now user) (st.balance_of user) now
    exact removed_le_cur _ _ _ hb hv

/-- C8 witness: the claim scenario instantiated on `decrease_state`
(balance 50, record 5000 current at time 150, value 30). -/
theorem decrease_coinday_proportional_witness :
    (decrease_coinday_elp decrease_state 7 30 150 1).2
      = coinday_at (decrease_state.reward_contract.get_coinday_info 150 7)
          (decrease_state.balance_of 7) 150
          * (30 * 100000000 / decrease_state.balance_of 7) / 100000000 :=
  (decrease_coinday_proportional decrease_state 7 30 150 1 (by decide) (by decide)).1.1

/-- C9: for an account whose `last_index` already equals
`awards_length`, the inline ELP settle accrues zero reward, succeeds,
leaves `reward_of` unchanged, and returns the checkpoint
`(now, awards_length)`. -/
theorem settle_idempotent_when_caught_up (st : RELPState) (now user : Nat)
    (h : (st.reward_contract.get_coinday_info now user).last_index
        = st.reward_contract.awards_length) :
    settle_elp (st.reward_contract.get_coinday_info now user) (st.balance_of user)
        (st.reward_contract.awards.drop
          (st.reward_contract.get_coinday_info now user).last_index) = 0
    ∧ (match get_elp_reward st now user with
       | Except.ok r =>
           r.1.reward_contract.reward_of user = st.reward_contract.reward_of user
           ∧ r.2.1 = now ∧ r.2.2 = st.reward_contract.awards_length
       | Except.error _ => False) := by
  constructor
  · rw [h]
    simp [settle_elp, RewardState.awards_length, List.drop_length]
  · by_cases hd : st.total_supply = 0
        ∧ st.reward_contract.deploy_time = st.reward_contract.daily_award.2
    · simp_all [get_elp_reward, RELPState.balance_of, RewardState.get_coinday_info,
        RewardState.awards_length, RewardState.update_daily_award, RewardState.reward_of,
        settle_elp, List.drop_length]
    · simp only [get_elp_reward, if_neg hd]
      simp_all [RELPState.balance_of, RewardState.get_coinday_info,
        RewardState.awards_length, RewardState.reward_of, settle_elp, List.drop_length]

/-- C9 witness: on `caught_up_state` (one sealed epoch, record with
`last_index = 1`, reward 123 already credited) a repeated settle
changes nothing. -/
theorem settle_idempotent_witness :
    settle_elp (caught_up_state.reward_contract.get_coinday_info 200 7)
        (caught_up_state.balance_of 7)
        (caught_up_state.reward_contract.awards.drop
          (caught_up_state.reward_contract.get_coinday_info 200 7).last_index) = 0
    ∧ (match get_elp_reward caught_up_state 200 7 with
       | Except.ok r =>
           r.1.reward_contract.reward_of 7 = caught_up_state.reward_contract.reward_of 7
           ∧ r.2.1 = 200 ∧ r.2.2 = caught_up_state.reward_contract.awards_length
       | Except.error _ => False) :=
  settle_idempotent_when_caught_up caught_up_state 200 7 (by decide)

/-- C10: the free-balance guards of `burn` and `transfer_from_to`
compute `user_balance - lock_balance` with unchecked `u128`
subtraction; under the precondition `lock_balance ≤ user_balance` they
produce `InsufficientFreeBalance` exactly for an over-large value,
while for a state with `lock_balance > user_balance` the subtraction
underflows (wraps past the free-balance comparison) so the typed error
branch is never reached. -/
theorem free_balance_guard_underflow (st : RELPState) (caller user amount : Nat)
    (howner : caller = st.owner) (hsupply : amount ≤ st.total_supply)
    (hbal : st.balance_of user < 2 ^ 128)
    (hlock : (st.lock_info_of user).2 ≤ st.balance_of user) :
    (burn_guard st caller user amount = Except.error Error.InsufficientFreeBalance
      ↔ st.balance_of user - (st.lock_info_of user).2 < amount)
    ∧ (transfer_guard st user amount = Except.error Error.InsufficientFreeBalance
      ↔ st.balance_of user - (st.lock_info_of user).2 < amount)
    ∧ burn_guard overlock_state 0 7 8 = Except.ok ()
    ∧ overlock_state.balance_of 7 < (overlock_state.lock_info_of 7).2 := by
  have hs : u128_sub (st.balance_of user) (st.lock_info_of user).2
      = st.balance_of user - (st.lock_info_of user).2 :=
    u128_sub_of_le _ _ hlock hbal
  refine ⟨?_, ?_, rfl, by decide⟩
  · simp only [burn_guard, howner, hs]
    simp only [Nat.not_lt.mpr hsupply, if_false]
    split <;> simp_all
  · simp only [transfer_guard, hs]
    split <;> simp_all

/-- C10 witness: on `lock_state` (balance 10, lock 3, supply 100) the
burn guard flags a request of 8 (> free balance 7) as
`InsufficientFreeBalance`. -/
theorem free_balance_guard_witness :
    burn_guard lock_state 0 7 8 = Except.error Error.InsufficientFreeBalance
      ↔ lock_state.balance_of 7 - (lock_state.lock_info_of 7).2 < 8 :=
  (free_balance_guard_underflow lock_state 0 7 8 rfl (by decide) (by decide) (by decide)).1

end StoreContracts
